import Mathlib

/-!
Verification development for the `html-webpack-inline-image` plugin
(`src/index.js`).  The plugin post-processes HTML emitted by a build
pipeline: it parses the HTML, classifies `<img>` nodes that reference
local svg/png/jpg assets, and rewrites the text buffer at the node's
byte span with either optimized inline SVG, a base64 data URI, or a
reference to a relocated copy of a large raster asset.

The embedding below translates the orchestration code of `index.js`
into pure Lean functions.  External collaborators (the parse5 HTML
parser, the filesystem, the SVGO optimizer, the mime-types lookup and
Node's base64 encoder) are modelled as fields of an `Env` record, so
that every definition stays executable once a concrete `Env` is
supplied.  Promises are modelled by a three-state outcome type
(`resolved` / `rejected` / `pending`); `pending` captures a promise on
which neither `resolve` nor `reject` is ever called.  Character
offsets stand in for JavaScript UTF-16 code-unit offsets (identical on
the ASCII fixtures used here).
-/

namespace InlineImage

/-- A JavaScript primitive value, as stored in an options / config object. -/
inductive JsVal where
  | bool : Bool → JsVal
  | num : Int → JsVal
  | str : String → JsVal
deriving DecidableEq

/-- One attribute of a parsed HTML element (parse5 `attrs` entry). -/
structure Attr where
  name : String
  value : String
deriving DecidableEq

/-- The `__location` span of a parse5 node: `[startOffset, endOffset)`. -/
structure Location where
  startOffset : Nat
  endOffset : Nat
deriving DecidableEq

mutual
/-- A parse5 tree node: tag name, attributes, children, byte span.  The
children are a dedicated list type so that the document-order traversal
below is a structural recursion (and therefore evaluates inside the
kernel on concrete documents). -/
inductive PNode where
  | mk (nodeName : String) (attrs : List Attr) (childNodes : PNodeList) (loc : Location)
/-- Children of a `PNode`, in document order. -/
inductive PNodeList where
  | nil
  | cons (head : PNode) (tail : PNodeList)
end

def PNode.nodeName : PNode → String
  | .mk n _ _ _ => n

def PNode.attrs : PNode → List Attr
  | .mk _ a _ _ => a

def PNode.childNodes : PNode → PNodeList
  | .mk _ _ c _ => c

def PNode.loc : PNode → Location
  | .mk _ _ _ l => l

/-- Build a child-node list from a plain list. -/
def pnodeListOf : List PNode → PNodeList
  | [] => .nil
  | n :: rest => .cons n (pnodeListOf rest)

/-- Outcome of a JavaScript promise.  `pending` is a promise on which
neither `resolve` nor `reject` is ever invoked. -/
inductive Promise (α : Type) where
  | resolved : α → Promise α
  | rejected : Promise α
  | pending : Promise α
deriving DecidableEq

/-- Does `pat` occur at the head of the text? -/
def leadsWith : List Char → List Char → Bool
  | [], _ => true
  | _ :: _, [] => false
  | a :: as, b :: bs => a == b && leadsWith as bs

/-- Does `pat` occur anywhere in the text? -/
def findSub : List Char → List Char → Bool
  | pat, [] => leadsWith pat []
  | pat, c :: cs => leadsWith pat (c :: cs) || findSub pat cs

/-- `~str.indexOf(pat)` truthiness of JavaScript: substring containment. -/
def hasSub (pat s : String) : Bool :=
  findSub pat.toList s.toList

/-- `html.substring(0, s) + frag + html.substring(e)` — the splice used by
all three replacement helpers of `index.js`. -/
def spliceAt (html : String) (s e : Nat) (frag : String) : String :=
  String.mk (html.toList.take s ++ frag.toList ++ html.toList.drop e)

/-- Model of `path.resolve('src', p)` for the relative asset paths the
plugin handles: paths are keys of the model filesystem. -/
def pathResolveSrc (p : String) : String :=
  "src/" ++ p

/-- Split a character list at every separator (JavaScript
`String.prototype.split` semantics: `''` gives `['']`, separators at
the edges give empty segments). -/
def splitChars (sep : Char) : List Char → List (List Char)
  | [] => [[]]
  | c :: cs =>
      let r := splitChars sep cs
      if c = sep then [] :: r
      else
        match r with
        | [] => [[c]]
        | w :: ws => (c :: w) :: ws

/-- `imageSrc.split('/')`. -/
def splitSlash (s : String) : List String :=
  (splitChars '/' s.toList).map String.mk

/-- `arr[arr.length - 1]` on a possibly empty array, with a default. -/
def lastD {α : Type} : List α → α → α
  | [], d => d
  | [a], _ => a
  | _ :: rest, d => lastD rest d

/-- Keys of a JavaScript object modelled as an ordered association list. -/
def keysOf {α : Type} (l : List (String × α)) : List String :=
  l.map Prod.fst

/-- Property lookup on a JavaScript object (first occurrence of the key). -/
def lookupKey {α : Type} (k : String) : List (String × α) → Option α
  | [] => none
  | p :: rest => if p.1 = k then some p.2 else lookupKey k rest

/-- One assignment `target[key] = value` of `Object.assign`: an existing
key keeps its position and gets the new value, a new key is appended. -/
def assignStep {α : Type} (acc : List (String × α)) (kv : String × α) : List (String × α) :=
  if kv.1 ∈ keysOf acc then acc.map (fun p => if p.1 = kv.1 then (p.1, kv.2) else p)
  else acc ++ [kv]

/-- `Object.assign(target, source)`: copy the source's keys in order into
the target, mutating it.  The returned object is the mutated target. -/
def objectAssign {α : Type} (target source : List (String × α)) : List (String × α) :=
  source.foldl assignStep target

/-- The merge rule as the specification words it: start from the default
ordered sequence, replace the value of each key also present in the
override (keeping that key's original position), and append override keys
not present in the default at the end, in override order. -/
def mergeSpec {α : Type} (d o : List (String × α)) : List (String × α) :=
  d.map (fun p => (p.1, (lookupKey p.1 o).getD p.2)) ++
    o.filter (fun p => decide (p.1 ∉ keysOf d))

/-- `config.plugins = _.map(configObj, (value, key) => ({ [key]: value }))`:
the ordered plugin sequence handed to SVGO, one singleton object per key. -/
def configPlugins {α : Type} (configObj : List (String × α)) : List (List (String × α)) :=
  configObj.map (fun p => [p])

/-- The external collaborators of `index.js`: parse5, the filesystem,
SVGO, mime-types and Node's base64 encoder.  All are black boxes to the
plugin, so they are parameters of the model. -/
structure Env where
  /-- `parse5.parseFragment(html, { locationInfo: true })`. -/
  parseFragment : String → PNode
  /-- `fs.existsSync(path)`. -/
  existsSync : String → Bool
  /-- `fs.statSync(path).size`; `none` when `statSync` throws. -/
  statSize : String → Option Nat
  /-- `fs.readFile(path, 'utf8', cb)`; `none` when the callback gets an error. -/
  readFileText : String → Option String
  /-- `fs.readFileSync(path)` as raw bytes. -/
  readFileBytes : String → List Nat
  /-- `new SVGO({plugins}).optimize(data)`; `none` when the promise rejects. -/
  optimize : List (List (String × JsVal)) → String → Option String
  /-- `mimeType.lookup(path)`; `none` models the `false` return. -/
  mimeLookup : String → Option String
  /-- `new Buffer(bytes).toString('base64')`. -/
  base64 : List Nat → String

/-- The mutable fields of a `HtmlWebpackInlineSVGPlugin` instance, plus
the module-level `svgoDefaultConfig` object (required once per process
from `svgo-config.js`, whose contents are not part of `src/`, so they
stay abstract). -/
structure PluginState where
  /-- `this.basePath = options.basePath` (stored at construction). -/
  basePath : Option JsVal
  /-- `this.userConfig` after `getUserConfig` (the `svgoConfig` object). -/
  userConfig : List (String × JsVal)
  /-- `this.imageLimit`. -/
  imageLimit : Nat
  /-- `this.processedImages`: start offsets already handled. -/
  processedImages : List Nat
  /-- The shared `svgoDefaultConfig` object (mutated by `Object.assign`). -/
  svgoDefault : List (String × JsVal)
  /-- `this.outputPath`. -/
  outputPath : String
  /-- `this.files`: `(filename, originalHtml)` pairs. -/
  files : List (String × String)
deriving DecidableEq

/-- The recognized fields of the constructor's `options` object. -/
structure PluginOptions where
  runPreEmit : Bool
  basePath : Option JsVal
  imageLimit : Option Nat

/-- The constructor of `HtmlWebpackInlineSVGPlugin`.  `imageLimit` uses
JavaScript `options.imageLimit || 5148`, so `0` also falls back to the
default.  `svgoDefault0` is the object loaded from `svgo-config.js`. -/
def mkPluginState (o : PluginOptions) (svgoDefault0 : List (String × JsVal)) : PluginState :=
  { basePath := o.basePath
    userConfig := []
    imageLimit := match o.imageLimit with
                  | some n => if n = 0 then 5148 else n
                  | none => 5148
    processedImages := []
    svgoDefault := svgoDefault0
    outputPath := ""
    files := [] }

/-- The `htmlPluginData` object handed to the html-webpack-plugin hooks:
the emitted html (`.html` resp. `.html.source()`), the output filename,
and `plugin.options.svgoConfig` (`none` when it is not an object). -/
structure HtmlPluginData where
  html : String
  outputName : Option String
  svgoConfig : Option (List (String × JsVal))
deriving DecidableEq

/-- `getUserConfig`: store `svgoConfig` when it is an object, else `{}`. -/
def getUserConfig (st : PluginState) (d : HtmlPluginData) : PluginState :=
  { st with userConfig := d.svgoConfig.getD [] }

/-- `getImagesSrc`: the first `src` attribute's value, filtered to be
non-empty and to contain one of `.svg` / `.jpg` / `.png`; else `''`. -/
def getImagesSrc (inlineImage : PNode) : String :=
  match inlineImage.attrs.find? (fun a => a.name == "src") with
  | none => ""
  | some a =>
      if a.value ≠ "" ∧ (hasSub ".svg" a.value = true ∨ hasSub ".jpg" a.value = true ∨
          hasSub ".png" a.value = true) then a.value else ""

/-- `isNodeValidInlineImage`: a node already recorded in
`processedImages` is rejected up front; otherwise the node must be an
`img`, its (filtered) src must resolve to an existing file, and the src
must contain one of the three substrings. -/
def isNodeValidInlineImage (env : Env) (processed : List Nat) (node : PNode) : Bool :=
  let imageSrc := getImagesSrc node
  if node.loc.startOffset ∈ processed then false
  else if node.nodeName = "img" ∧ env.existsSync (pathResolveSrc imageSrc) = true ∧
      (hasSub ".svg" imageSrc = true ∨ hasSub ".png" imageSrc = true ∨
        hasSub ".jpg" imageSrc = true) then true
  else false

/-- The recursive walk of `getInlineImages`: for each child in document
order, a valid inline image is pushed onto the accumulator, otherwise
the walk descends into the child (depth-first, pre-order). -/
def getInlineImagesList (env : Env) (processed : List Nat) :
    PNodeList → List PNode → List PNode
  | .nil, inlineImages => inlineImages
  | .cons (PNode.mk n a ch l) rest, inlineImages =>
      let childNode := PNode.mk n a ch l
      let acc :=
        if isNodeValidInlineImage env processed childNode then inlineImages ++ [childNode]
        else getInlineImagesList env processed ch inlineImages
      getInlineImagesList env processed rest acc

/-- `getInlineImages(documentFragment)`. -/
def getInlineImages (env : Env) (processed : List Nat) (documentFragment : PNode) :
    List PNode :=
  getInlineImagesList env processed documentFragment.childNodes []

/-- `getFirstInlineImage`: the first inline image, or `null`. -/
def getFirstInlineImage (env : Env) (processed : List Nat) (documentFragment : PNode) :
    Option PNode :=
  (getInlineImages env processed documentFragment).head?

/-- `replaceImageWithSVG`: splice the optimized SVG over the node's span. -/
def replaceImageWithSVG (html : String) (inlineImage : PNode) (svg : String) : String :=
  spliceAt html inlineImage.loc.startOffset inlineImage.loc.endOffset svg

/-- `replaceImageWithBase64`: splice `<img src="${base64}" />` over the span. -/
def replaceImageWithBase64 (html : String) (inlineImage : PNode) (base64 : String) : String :=
  spliceAt html inlineImage.loc.startOffset inlineImage.loc.endOffset
    ("<img src=\"" ++ base64 ++ "\" />")

/-- `moveStaticImage`: splice `<img src="${imagePath}" />` over the span. -/
def moveStaticImage (html : String) (inlineImage : PNode) (imagePath : String) : String :=
  spliceAt html inlineImage.loc.startOffset inlineImage.loc.endOffset
    ("<img src=\"" ++ imagePath ++ "\" />")

/-- `this.processedImages.push(inlineImage.__location.startOffset)`. -/
def pushProcessed (st : PluginState) (inlineImage : PNode) : PluginState :=
  { st with processedImages := st.processedImages ++ [inlineImage.loc.startOffset] }

/-- Result of one `processOutputHtml` call: the promise outcome, the
plugin state after the call, and the asset copies performed
(`createReadStream(...).pipe(createWriteStream(...))`). -/
structure POHResult where
  out : Promise String
  st : PluginState
  copies : List (String × String)
deriving DecidableEq

/-- `processOutputHtml`: choose a strategy for one inline image.

SVG branch: the offset push at the end of the executor runs before the
asynchronous `fs.readFile` callback, so it happens regardless of the
optimizer's outcome; `Object.assign(svgoDefaultConfig, this.userConfig)`
then mutates the shared default config.  On optimizer failure only
`console.log` runs, so the promise never settles (`pending`).

Raster branch: `statSync` decides the size; at or above `imageLimit`
the file is copied to `dist/<userConfig.basePath>/<fileName>` and the
node replaced by a relocated `<img>`; `path.resolve('dist',
this.userConfig.basePath)` throws when `userConfig.basePath` is not a
string, rejecting the promise before the offset push.  Below the limit
the file is embedded as a base64 data URI whose mime type comes from
`mimeType.lookup` (JavaScript renders a `false` result as the string
`"false"` inside the template literal). -/
def processOutputHtml (env : Env) (st : PluginState) (html : String) (inlineImage : PNode) :
    POHResult :=
  let imageSrc := getImagesSrc inlineImage
  if imageSrc = "" then
    { out := .resolved html, st := st, copies := [] }
  else if hasSub ".svg" imageSrc = true then
    let st1 := pushProcessed st inlineImage
    let configObj := objectAssign st1.svgoDefault st1.userConfig
    let st2 := { st1 with svgoDefault := configObj }
    match env.readFileText (pathResolveSrc imageSrc) with
    | none => { out := .rejected, st := st2, copies := [] }
    | some data =>
        match env.optimize (configPlugins configObj) data with
        | some optimisedSVG =>
            { out := .resolved (replaceImageWithSVG html inlineImage optimisedSVG)
              st := st2, copies := [] }
        | none => { out := .pending, st := st2, copies := [] }
  else
    match env.statSize (pathResolveSrc imageSrc) with
    | none => { out := .rejected, st := st, copies := [] }
    | some size =>
        if st.imageLimit ≤ size then
          match lookupKey "basePath" st.userConfig with
          | some (JsVal.str bp) =>
              let fileName := lastD (splitSlash imageSrc) ""
              { out := .resolved (moveStaticImage html inlineImage ("./" ++ bp ++ fileName))
                st := pushProcessed st inlineImage
                copies := [(pathResolveSrc imageSrc, "dist/" ++ bp ++ "/" ++ fileName)] }
          | _ => { out := .rejected, st := st, copies := [] }
        else
          let image := env.readFileBytes (pathResolveSrc imageSrc)
          let seqData := env.base64 image
          let base64Data := "data:" ++ (env.mimeLookup (pathResolveSrc imageSrc)).getD "false"
            ++ ";base64," ++ seqData
          { out := .resolved (replaceImageWithBase64 html inlineImage base64Data)
            st := pushProcessed st inlineImage
            copies := [] }

/-- `processImage`: re-parse the current html, take the first inline
image of the fresh tree, and process it; with no image, resolve with the
html unchanged. -/
def processImage (env : Env) (st : PluginState) (html : String) : POHResult :=
  match getFirstInlineImage env st.processedImages (env.parseFragment html) with
  | some inlineImage => processOutputHtml env st html inlineImage
  | none => { out := .resolved html, st := st, copies := [] }

/-- State of the `updateHTML` promise chain.  `val` is the value the
chain currently carries: `resolved none` models JavaScript `undefined`
(produced by a `.catch(err => console.log(err))` handler).  `trace`
instruments the chain with the start offsets of the nodes handed to
`processOutputHtml`. -/
structure Chain where
  val : Promise (Option String)
  st : PluginState
  copies : List (String × String)
  trace : List Nat
deriving DecidableEq

/-- One link of the `updateHTML` reduce chain:
`promise.then(html => this.processImage(html)).catch(err => console.log(err))`.
A pending predecessor stays pending; a rejected predecessor is turned
into `undefined` by the catch; `processImage(undefined)` throws inside
`parse5` (no string input), so its rejection again becomes `undefined`. -/
def chainLink (env : Env) (c : Chain) : Chain :=
  match c.val with
  | .pending => c
  | .rejected => { c with val := .resolved none }
  | .resolved none => { c with val := .resolved none }
  | .resolved (some html) =>
      match getFirstInlineImage env c.st.processedImages (env.parseFragment html) with
      | none => c
      | some inlineImage =>
          let r := processOutputHtml env c.st html inlineImage
          { val := match r.out with
                   | .resolved h => .resolved (some h)
                   | .rejected => .resolved none
                   | .pending => .pending
            st := r.st
            copies := c.copies ++ r.copies
            trace := c.trace ++ [inlineImage.loc.startOffset] }

/-- `updateHTML`: the reduce over `inlineImages` chaining one
`processImage` call per initial candidate (the element itself is unused
by the chain body, only the count matters). -/
def updateHTML (env : Env) (st : PluginState) (html : String) (inlineImages : List PNode) :
    Chain :=
  inlineImages.foldl (fun c _ => chainLink env c)
    { val := .resolved (some html), st := st, copies := [], trace := [] }

/-- Result of `processImages` over one document. -/
structure PIResult where
  out : Promise (Option String)
  st : PluginState
  copies : List (String × String)
  trace : List Nat
deriving DecidableEq

/-- `processImages`: parse the original html, collect the candidates;
with none, `resolve()` (i.e. resolve with `undefined`); otherwise run
the `updateHTML` chain. -/
def processImages (env : Env) (st : PluginState) (html : String) : PIResult :=
  let documentFragment := env.parseFragment html
  let inlineImages := getInlineImages env st.processedImages documentFragment
  if inlineImages.length = 0 then
    { out := .resolved none, st := st, copies := [], trace := [] }
  else
    let c := updateHTML env st html inlineImages
    { out := c.val, st := c.st, copies := c.copies, trace := c.trace }

/-- Outcome of `updateOutputFile`. -/
inductive WriteOutcome where
  | wrote (outputPath filename content : String)
  | skipped
  | failed
deriving DecidableEq

/-- `updateOutputFile`: reject when `outputPath` or `filename` is
missing; skip the write when the html is falsy (`undefined` or `''`);
otherwise write the html to the output file. -/
def updateOutputFile (outputPath : String) (html : Option String) (filename : String) :
    WriteOutcome :=
  if outputPath = "" ∨ filename = "" then .failed
  else
    match html with
    | none => .skipped
    | some h => if h = "" then .skipped else .wrote outputPath filename h

/-- The `html-webpack-plugin-after-html-processing` hook (pre-emit mode):
fetch the user config, process the images, and hand back
`htmlPluginData` with `htmlPluginData.html = html || htmlPluginData.html`
(so `undefined` and `''` fall back to the original); a rejection is
caught, logged, and the original data handed back. -/
def afterHtmlProcessingHook (env : Env) (st : PluginState) (d : HtmlPluginData) :
    Promise (HtmlPluginData × PluginState) :=
  let st1 := getUserConfig st d
  let r := processImages env st1 d.html
  match r.out with
  | .resolved v =>
      .resolved ({ d with html := match v with
                                  | some h => if h = "" then d.html else h
                                  | none => d.html }, r.st)
  | .rejected => .resolved (d, r.st)
  | .pending => .pending

/-- The `html-webpack-plugin-after-emit` hook: record the output path
from the compilation; with no output path, log and pass the data back
unchanged; otherwise fetch the user config and the filename; with no
filename, log and pass the data back unchanged; otherwise push
`(filename, originalHtml)` onto `this.files`.  `htmlPluginData` itself
is never modified by this hook. -/
def afterEmitHtmlHook (compilationOutputPath : Option String) (d : HtmlPluginData)
    (st : PluginState) : PluginState × HtmlPluginData :=
  let outputPath := compilationOutputPath.getD ""
  let st1 := { st with outputPath := outputPath }
  if outputPath = "" then (st1, d)
  else
    let st2 := getUserConfig st1 d
    let filename := d.outputName.getD ""
    if filename = "" then (st2, d)
    else ({ st2 with files := st2.files ++ [(filename, d.html)] }, d)

/-- The classifier rules as the specification words them: tag `img`, a
`src` attribute with a non-empty value containing one of the substrings
`.svg` / `.png` / `.jpg`, the value resolving to an existing file, and a
span start offset not already in the processed-offset set. -/
def eligibleSpec (env : Env) (processed : List Nat) (node : PNode) : Prop :=
  node.nodeName = "img" ∧
  (∃ a, node.attrs.find? (fun x => x.name == "src") = some a ∧ a.value ≠ "" ∧
    (hasSub ".svg" a.value = true ∨ hasSub ".png" a.value = true ∨
      hasSub ".jpg" a.value = true) ∧
    env.existsSync (pathResolveSrc a.value) = true) ∧
  node.loc.startOffset ∉ processed

/-! ### Concrete fixtures for witnesses and counterexamples -/

/-- An `<img src="...">` node with span `[s, e)`. -/
def imgNode (src : String) (s e : Nat) : PNode :=
  PNode.mk "img" [{ name := "src", value := src }] .nil { startOffset := s, endOffset := e }

/-- A parse5 document fragment with the given children. -/
def fragOf (children : List PNode) : PNode :=
  PNode.mk "#document-fragment" [] (pnodeListOf children) { startOffset := 0, endOffset := 0 }

/-- An environment in which nothing exists and everything fails. -/
def emptyEnv : Env :=
  { parseFragment := fun _ => fragOf []
    existsSync := fun _ => false
    statSize := fun _ => none
    readFileText := fun _ => none
    readFileBytes := fun _ => []
    optimize := fun _ _ => none
    mimeLookup := fun _ => none
    base64 := fun _ => "" }

/-- Constructor options used by the fixtures. -/
def optsBase : PluginOptions :=
  { runPreEmit := false, basePath := none, imageLimit := none }

/-- A freshly constructed plugin state with an empty default config. -/
def stBase : PluginState :=
  mkPluginState optsBase []

/-- An `htmlPluginData` with no image references and no svgo override. -/
def dPlain : HtmlPluginData :=
  { html := "<p>hi</p>", outputName := some "index.html", svgoConfig := none }

def htmlLogo : String := "<div><img src=\"logo.svg\"></div>"

def nodeLogo : PNode := imgNode "logo.svg" 5 25

def fragLogo : PNode :=
  fragOf [PNode.mk "div" [] (pnodeListOf [nodeLogo]) { startOffset := 0, endOffset := 31 }]

/-- Environment for the single-SVG document: `logo.svg` exists under
`src` and the optimizer succeeds with `<svg>OK</svg>`. -/
def envLogo : Env :=
  { emptyEnv with
    parseFragment := fun h => if h = htmlLogo then fragLogo else fragOf []
    existsSync := fun p => p == "src/logo.svg"
    readFileText := fun p => if p = "src/logo.svg" then some "<svg>raw</svg>" else none
    optimize := fun _ _ => some "<svg>OK</svg>" }

/-- Plugin state with a non-empty svgo override and non-empty default
config, for the config-mutation scenario. -/
def stUser : PluginState :=
  { stBase with
    userConfig := [("removeTitle", JsVal.bool true)]
    svgoDefault := [("cleanupAttrs", JsVal.bool true)] }

def htmlPhoto : String := "<img src=\"photo.png\">"

def nodePhoto : PNode := imgNode "photo.png" 0 21

def fragPhoto : PNode := fragOf [nodePhoto]

/-- Environment for the single large raster document: `photo.png`
exists under `src` with size 10000 (above the default 5148 limit). -/
def envPhoto : Env :=
  { emptyEnv with
    parseFragment := fun h => if h = htmlPhoto then fragPhoto else fragOf []
    existsSync := fun p => p == "src/photo.png"
    statSize := fun p => if p = "src/photo.png" then some 10000 else none
    readFileBytes := fun p => if p = "src/photo.png" then [137, 80, 78, 71] else []
    mimeLookup := fun p => if p = "src/photo.png" then some "image/png" else none
    base64 := fun _ => "iVBORw" }

/-- State with a host-options `basePath` but no svgo override at all
(`svgoConfig` was absent, so `userConfig = {}`). -/
def stNoBase : PluginState :=
  { stBase with basePath := some (JsVal.str "hostdir/") }

/-- State with a host-options `basePath` and an svgo override that also
carries a `basePath` entry. -/
def stWithBase : PluginState :=
  { stBase with
    basePath := some (JsVal.str "hostdir/")
    userConfig := [("basePath", JsVal.str "imgs/")] }

def htmlTwo : String := "<p><img src=\"a.svg\"><img src=\"b.svg\"></p>"

def nodeA : PNode := imgNode "a.svg" 3 20

def nodeB : PNode := imgNode "b.svg" 20 37

def fragTwo : PNode :=
  fragOf [PNode.mk "p" [] (pnodeListOf [nodeA, nodeB]) { startOffset := 0, endOffset := 41 }]

/-- Environment with two SVG references whose files exist but whose
optimization always fails. -/
def envTwo : Env :=
  { emptyEnv with
    parseFragment := fun h => if h = htmlTwo then fragTwo else fragOf []
    existsSync := fun p => p == "src/a.svg" || p == "src/b.svg"
    readFileText := fun p =>
      if p = "src/a.svg" ∨ p = "src/b.svg" then some "<svg>raw</svg>" else none }

def htmlMixed : String := "<div><img src=\"a.svg.png\"></div>"

def nodeMixed : PNode := imgNode "a.svg.png" 5 26

def fragMixed : PNode :=
  fragOf [PNode.mk "div" [] (pnodeListOf [nodeMixed]) { startOffset := 0, endOffset := 32 }]

/-- Environment for a large raster asset whose filename also contains
`.svg`: `a.svg.png` exists under `src` with size 10000. -/
def envMixed : Env :=
  { emptyEnv with
    parseFragment := fun h => if h = htmlMixed then fragMixed else fragOf []
    existsSync := fun p => p == "src/a.svg.png"
    statSize := fun p => if p = "src/a.svg.png" then some 10000 else none
    readFileText := fun p => if p = "src/a.svg.png" then some "<svg>raw</svg>" else none
    optimize := fun _ _ => some "<svg>OK</svg>" }

/-! ### Basic lemmas about the classifier and the traversal -/

theorem hasSub_empty_svg : hasSub ".svg" "" = false := rfl

theorem hasSub_empty_png : hasSub ".png" "" = false := rfl

theorem hasSub_empty_jpg : hasSub ".jpg" "" = false := rfl

/-- Unfolded characterization of the classifier. -/
theorem isNodeValid_iff (env : Env) (p : List Nat) (node : PNode) :
    isNodeValidInlineImage env p node = true ↔
      node.loc.startOffset ∉ p ∧ node.nodeName = "img" ∧
      env.existsSync (pathResolveSrc (getImagesSrc node)) = true ∧
      (hasSub ".svg" (getImagesSrc node) = true ∨ hasSub ".png" (getImagesSrc node) = true ∨
        hasSub ".jpg" (getImagesSrc node) = true) := by
  simp only [isNodeValidInlineImage]
  split
  · rename_i hmem
    simp [hmem]
  · rename_i hmem
    split
    · rename_i hcond
      simp only [true_iff]
      exact ⟨hmem, hcond⟩
    · rename_i hcond
      simp only [Bool.false_eq_true, false_iff]
      intro hall
      exact hcond ⟨hall.2.1, hall.2.2.1, hall.2.2.2⟩

/-- A node classified valid is not yet in the processed-offset set. -/
theorem valid_not_mem_processed {env : Env} {p : List Nat} {node : PNode}
    (h : isNodeValidInlineImage env p node = true) :
    node.loc.startOffset ∉ p :=
  ((isNodeValid_iff env p node).mp h).1

/-- A node classified valid has a non-empty (filtered) image src. -/
theorem valid_src_ne {env : Env} {p : List Nat} {node : PNode}
    (h : isNodeValidInlineImage env p node = true) :
    getImagesSrc node ≠ "" := by
  intro hs
  rcases ((isNodeValid_iff env p node).mp h).2.2.2 with h3 | h3 | h3 <;>
    rw [hs] at h3 <;> simp [hasSub_empty_svg, hasSub_empty_png, hasSub_empty_jpg] at h3

/-- Every node returned by the traversal either was already in the
accumulator or passes the classifier. -/
theorem mem_getInlineImagesList (env : Env) (p : List Nat) :
    ∀ (ns : PNodeList) (acc : List PNode), ∀ x ∈ getInlineImagesList env p ns acc,
      x ∈ acc ∨ isNodeValidInlineImage env p x = true := by
  intro ns acc
  induction ns, acc using getInlineImagesList.induct env p with
  | case1 acc =>
      intro x hx
      simp only [getInlineImagesList] at hx
      exact Or.inl hx
  | case2 n a ch l rest inlineImages childNode acc2 ih1 ih2 =>
      intro x hx
      simp only [getInlineImagesList] at hx
      rcases ih2 x hx with hmem | hval
      · unfold acc2 childNode at hmem
        by_cases hv : isNodeValidInlineImage env p (PNode.mk n a ch l) = true
        · rw [if_pos hv] at hmem
          rcases List.mem_append.mp hmem with hmem' | hmem'
          · exact Or.inl hmem'
          · rcases List.mem_singleton.mp hmem' with rfl
            exact Or.inr hv
        · rw [if_neg hv] at hmem
          exact ih1 x hmem
      · exact Or.inr hval

/-- The first inline image of a fragment passes the classifier. -/
theorem getFirst_valid {env : Env} {p : List Nat} {frag : PNode} {node : PNode}
    (h : getFirstInlineImage env p frag = some node) :
    isNodeValidInlineImage env p node = true := by
  have hmem : node ∈ getInlineImages env p frag := by
    unfold getFirstInlineImage at h
    exact List.mem_of_mem_head? h
  rcases mem_getInlineImagesList env p frag.childNodes [] node hmem with hacc | hval
  · simp at hacc
  · exact hval

/-! ### Lemmas about `processOutputHtml` -/

/-- Whenever the transformer promise does not reject, the node's start
offset has been pushed onto `processedImages` by the same invocation
(for the SVG strategy this also holds on rejection, since the push runs
before the asynchronous callback; the rejecting raster paths are the
`statSync` throw and the missing `basePath` throw, both of which skip
the push). -/
theorem poh_processed_push {env : Env} {st : PluginState} {html : String} {node : PNode}
    (h1 : getImagesSrc node ≠ "")
    (h2 : (processOutputHtml env st html node).out ≠ Promise.rejected) :
    (processOutputHtml env st html node).st.processedImages
      = st.processedImages ++ [node.loc.startOffset] := by
  by_cases hsvg : hasSub ".svg" (getImagesSrc node) = true
  · cases hrf : env.readFileText (pathResolveSrc (getImagesSrc node)) with
    | none => simp [processOutputHtml, pushProcessed, h1, hsvg, hrf]
    | some data =>
        cases hopt : env.optimize
            (configPlugins (objectAssign st.svgoDefault st.userConfig)) data with
        | none => simp [processOutputHtml, pushProcessed, h1, hsvg, hrf, hopt]
        | some svg => simp [processOutputHtml, pushProcessed, h1, hsvg, hrf, hopt]
  · cases hstat : env.statSize (pathResolveSrc (getImagesSrc node)) with
    | none =>
        exfalso
        exact h2 (by simp [processOutputHtml, pushProcessed, h1, hsvg, hstat])
    | some size =>
        by_cases hsz : st.imageLimit ≤ size
        · cases hbp : lookupKey "basePath" st.userConfig with
          | none =>
              exfalso
              exact h2 (by simp [processOutputHtml, pushProcessed, h1, hsvg, hstat, hsz, hbp])
          | some v =>
              cases v with
              | str bp =>
                  simp [processOutputHtml, pushProcessed, h1, hsvg, hstat, hsz, hbp]
              | bool b =>
                  exfalso
                  exact h2 (by
                    simp [processOutputHtml, pushProcessed, h1, hsvg, hstat, hsz, hbp])
              | num i =>
                  exfalso
                  exact h2 (by
                    simp [processOutputHtml, pushProcessed, h1, hsvg, hstat, hsz, hbp])
        · simp [processOutputHtml, pushProcessed, h1, hsvg, hstat, hsz]

/-- Every successfully resolved transformation of a node with a
non-empty image src rewrites the buffer by splicing some fragment over
exactly the node's span. -/
theorem poh_out_splice {env : Env} {st : PluginState} {html : String} {node : PNode}
    (h1 : getImagesSrc node ≠ "") :
    ∀ h', (processOutputHtml env st html node).out = Promise.resolved h' →
      ∃ frag, h' = spliceAt html node.loc.startOffset node.loc.endOffset frag := by
  intro h' hout
  by_cases hsvg : hasSub ".svg" (getImagesSrc node) = true
  · cases hrf : env.readFileText (pathResolveSrc (getImagesSrc node)) with
    | none => simp [processOutputHtml, pushProcessed, h1, hsvg, hrf] at hout
    | some data =>
        cases hopt : env.optimize
            (configPlugins (objectAssign st.svgoDefault st.userConfig)) data with
        | none => simp [processOutputHtml, pushProcessed, h1, hsvg, hrf, hopt] at hout
        | some svg =>
            simp [processOutputHtml, pushProcessed, h1, hsvg, hrf, hopt,
              replaceImageWithSVG] at hout
            exact ⟨svg, hout.symm⟩
  · cases hstat : env.statSize (pathResolveSrc (getImagesSrc node)) with
    | none => simp [processOutputHtml, pushProcessed, h1, hsvg, hstat] at hout
    | some size =>
        by_cases hsz : st.imageLimit ≤ size
        · cases hbp : lookupKey "basePath" st.userConfig with
          | none =>
              simp [processOutputHtml, pushProcessed, h1, hsvg, hstat, hsz, hbp] at hout
          | some v =>
              cases v with
              | str bp =>
                  simp [processOutputHtml, pushProcessed, h1, hsvg, hstat, hsz, hbp,
                    moveStaticImage] at hout
                  exact ⟨_, hout.symm⟩
              | bool b =>
                  simp [processOutputHtml, pushProcessed, h1, hsvg, hstat, hsz, hbp] at hout
              | num i =>
                  simp [processOutputHtml, pushProcessed, h1, hsvg, hstat, hsz, hbp] at hout
        · simp [processOutputHtml, pushProcessed, h1, hsvg, hstat, hsz,
            replaceImageWithBase64] at hout
          exact ⟨_, hout.symm⟩

/-- The SVG strategy always merges the user config into the shared
default config object, whatever the optimizer then does. -/
theorem poh_svg_assign {env : Env} {st : PluginState} {html : String} {node : PNode}
    (h1 : getImagesSrc node ≠ "") (h2 : hasSub ".svg" (getImagesSrc node) = true) :
    (processOutputHtml env st html node).st.svgoDefault
      = objectAssign st.svgoDefault st.userConfig := by
  cases hrf : env.readFileText (pathResolveSrc (getImagesSrc node)) with
  | none => simp [processOutputHtml, pushProcessed, h1, h2, hrf]
  | some data =>
      cases hopt : env.optimize
          (configPlugins (objectAssign st.svgoDefault st.userConfig)) data with
      | none => simp [processOutputHtml, pushProcessed, h1, h2, hrf, hopt]
      | some svg => simp [processOutputHtml, pushProcessed, h1, h2, hrf, hopt]

/-- The raster strategy: at or above the threshold (and with a string
`basePath` in the svgo override config) the asset is copied and the node
replaced by a relocated `<img>`; strictly below the threshold the node
is replaced by a base64 data-URI `<img>` whose mime type is looked up
from the resolved file path, and nothing is copied. -/
theorem poh_raster {env : Env} {st : PluginState} {html : String} {node : PNode} {size : Nat}
    (h1 : getImagesSrc node ≠ "")
    (h2 : hasSub ".svg" (getImagesSrc node) = false)
    (h3 : env.statSize (pathResolveSrc (getImagesSrc node)) = some size) :
    (st.imageLimit ≤ size →
      ∀ bp, lookupKey "basePath" st.userConfig = some (JsVal.str bp) →
        (processOutputHtml env st html node).out = Promise.resolved
          (spliceAt html node.loc.startOffset node.loc.endOffset
            ("<img src=\"" ++ ("./" ++ bp ++ (lastD (splitSlash (getImagesSrc node)) ""))
              ++ "\" />")) ∧
        (processOutputHtml env st html node).copies =
          [(pathResolveSrc (getImagesSrc node),
            "dist/" ++ bp ++ "/" ++ (lastD (splitSlash (getImagesSrc node)) ""))]) ∧
    (size < st.imageLimit →
      (processOutputHtml env st html node).out = Promise.resolved
        (spliceAt html node.loc.startOffset node.loc.endOffset
          ("<img src=\""
            ++ ("data:" ++ (env.mimeLookup (pathResolveSrc (getImagesSrc node))).getD "false"
              ++ ";base64," ++ env.base64 (env.readFileBytes (pathResolveSrc (getImagesSrc node))))
            ++ "\" />")) ∧
      (processOutputHtml env st html node).copies = []) := by
  constructor
  · intro hsz bp hbp
    constructor <;>
      simp [processOutputHtml, pushProcessed, h1, h2, h3, hsz, hbp, moveStaticImage]
  · intro hsz
    constructor <;>
      simp [processOutputHtml, pushProcessed, h1, h2, h3, not_le.mpr hsz,
        replaceImageWithBase64]

/-! ### The `updateHTML` chain invariant -/

/-- Invariant of the reduce chain: the instrumented trace of attempted
node offsets has no duplicates, and while the chain is still alive
(carrying a string) every traced offset has been recorded in the
processed-offset set. -/
def ChainInv (c : Chain) : Prop :=
  c.trace.Nodup ∧
    ∀ h, c.val = Promise.resolved (some h) → ∀ o ∈ c.trace, o ∈ c.st.processedImages

theorem chainLink_inv (env : Env) (c : Chain) (hc : ChainInv c) : ChainInv (chainLink env c) := by
  obtain ⟨hnd, hsub⟩ := hc
  cases hval : c.val with
  | pending =>
      simp only [chainLink, hval]
      exact ⟨hnd, hsub⟩
  | rejected =>
      refine ⟨by simpa [chainLink, hval] using hnd, ?_⟩
      intro h hv
      simp [chainLink, hval] at hv
  | resolved v =>
      cases v with
      | none =>
          refine ⟨by simpa [chainLink, hval] using hnd, ?_⟩
          intro h hv
          simp [chainLink, hval] at hv
      | some html =>
          cases hfirst : getFirstInlineImage env c.st.processedImages (env.parseFragment html) with
          | none =>
              simp only [chainLink, hval, hfirst]
              exact ⟨hnd, hsub⟩
          | some node =>
              have hvalid := getFirst_valid hfirst
              have hnotmem := valid_not_mem_processed hvalid
              have hsrc := valid_src_ne hvalid
              have htr : ∀ o ∈ c.trace, o ∈ c.st.processedImages := hsub html hval
              have hstart : node.loc.startOffset ∉ c.trace := fun hmem => hnotmem (htr _ hmem)
              have htrace : (chainLink env c).trace = c.trace ++ [node.loc.startOffset] := by
                simp [chainLink, hval, hfirst]
              refine ⟨?_, ?_⟩
              · rw [htrace]
                exact hnd.append (List.nodup_singleton _)
                  (List.disjoint_singleton.mpr hstart)
              · intro h' hval' o ho
                rw [htrace] at ho
                have hstpi : (chainLink env c).st.processedImages
                    = (processOutputHtml env c.st html node).st.processedImages := by
                  simp [chainLink, hval, hfirst]
                cases rout : (processOutputHtml env c.st html node).out with
                | resolved h2 =>
                    have hpush := poh_processed_push hsrc
                      (by rw [rout]; exact fun hh => Promise.noConfusion hh)
                    rw [hstpi, hpush]
                    rcases List.mem_append.mp ho with ho' | ho'
                    · exact List.mem_append.mpr (Or.inl (htr o ho'))
                    · exact List.mem_append.mpr (Or.inr ho')
                | rejected =>
                    exfalso
                    simp [chainLink, hval, hfirst, rout] at hval'
                | pending =>
                    exfalso
                    simp [chainLink, hval, hfirst, rout] at hval'

theorem foldl_chainLink_inv (env : Env) :
    ∀ (l : List PNode) (c : Chain), ChainInv c →
      ChainInv (l.foldl (fun c _ => chainLink env c) c) := by
  intro l
  induction l with
  | nil => intro c hc; simpa using hc
  | cons x xs ih => intro c hc; simpa using ih _ (chainLink_inv env c hc)

/-- The instrumented chain invariant holds for any full `updateHTML` run. -/
theorem updateHTML_inv (env : Env) (st : PluginState) (html : String) (ims : List PNode) :
    ChainInv (updateHTML env st html ims) := by
  unfold updateHTML
  refine foldl_chainLink_inv env ims _ ⟨List.nodup_nil, ?_⟩
  intro h _ o ho
  simp at ho

/-! ### Lemmas about `Object.assign` -/

theorem lookupKey_eq_none {α : Type} {k : String} :
    ∀ {l : List (String × α)}, k ∉ keysOf l → lookupKey k l = none := by
  intro l
  induction l with
  | nil => intro _; rfl
  | cons p rest ih =>
      intro hk
      simp only [keysOf, List.map_cons, List.mem_cons, not_or] at hk
      rw [lookupKey, if_neg (fun h => hk.1 h.symm)]
      exact ih (by simpa [keysOf] using hk.2)

theorem lookupKey_append {α : Type} (k : String) :
    ∀ (l1 l2 : List (String × α)), lookupKey k (l1 ++ l2)
      = match lookupKey k l1 with
        | some v => some v
        | none => lookupKey k l2 := by
  intro l1 l2
  induction l1 with
  | nil => rfl
  | cons p rest ih =>
      by_cases hp : p.1 = k
      · simp [lookupKey, hp]
      · simpa [lookupKey, hp] using ih

/-- Replacing the value at one key leaves the key sequence unchanged. -/
theorem keysOf_replace {α : Type} (k0 : String) (v0 : α) (l : List (String × α)) :
    keysOf (l.map (fun p => if p.1 = k0 then (p.1, v0) else p)) = keysOf l := by
  simp only [keysOf, List.map_map]
  apply List.map_congr_left
  intro p _
  by_cases hp : p.1 = k0 <;> simp [hp]

theorem keysOf_assignStep {α : Type} (acc : List (String × α)) (kv : String × α) :
    keysOf (assignStep acc kv)
      = if kv.1 ∈ keysOf acc then keysOf acc else keysOf acc ++ [kv.1] := by
  unfold assignStep
  split
  · exact keysOf_replace kv.1 kv.2 acc
  · simp [keysOf]

theorem nodup_keysOf_assignStep {α : Type} {acc : List (String × α)} (kv : String × α)
    (h : (keysOf acc).Nodup) : (keysOf (assignStep acc kv)).Nodup := by
  rw [keysOf_assignStep]
  split
  · exact h
  · rename_i hmem
    exact h.append (List.nodup_singleton _) (List.disjoint_singleton.mpr hmem)

/-- Replacing the value at key `k0` does not affect lookups of other keys. -/
theorem lookupKey_replace_ne {α : Type} {k k0 : String} (hne : k0 ≠ k) (v0 : α) :
    ∀ (l : List (String × α)),
      lookupKey k (l.map (fun p => if p.1 = k0 then (p.1, v0) else p)) = lookupKey k l := by
  intro l
  induction l with
  | nil => rfl
  | cons p rest ih =>
      by_cases hp : p.1 = k0
      · simp [lookupKey, hp, hne, ih]
      · by_cases hk : p.1 = k <;> simp [lookupKey, hp, hk, hne.symm, ih]

/-- Replacing the value at a present key makes its lookup the new value. -/
theorem lookupKey_replace_self {α : Type} {k0 : String} (v0 : α) :
    ∀ (l : List (String × α)), k0 ∈ keysOf l →
      lookupKey k0 (l.map (fun p => if p.1 = k0 then (p.1, v0) else p)) = some v0 := by
  intro l
  induction l with
  | nil => intro h; simp [keysOf] at h
  | cons p rest ih =>
      intro hmem
      by_cases hp : p.1 = k0
      · simp [lookupKey, hp]
      · simp only [keysOf, List.map_cons, List.mem_cons] at hmem
        rcases hmem with h | h
        · exact absurd h.symm hp
        · simpa [lookupKey, hp] using ih (by simpa [keysOf] using h)

/-- Looking up a key distinct from the assigned one is unaffected. -/
theorem assignStep_lookup_ne {α : Type} {k : String} (acc : List (String × α))
    (kv : String × α) (hne : kv.1 ≠ k) :
    lookupKey k (assignStep acc kv) = lookupKey k acc := by
  unfold assignStep
  split
  · exact lookupKey_replace_ne hne kv.2 acc
  · rw [lookupKey_append]
    cases hacc : lookupKey k acc with
    | some v => rfl
    | none => simp [lookupKey, hne]

/-- Looking up the assigned key yields the assigned value. -/
theorem assignStep_lookup_self {α : Type} (acc : List (String × α)) (kv : String × α) :
    lookupKey kv.1 (assignStep acc kv) = some kv.2 := by
  unfold assignStep
  split
  · rename_i hmem
    exact lookupKey_replace_self kv.2 acc hmem
  · rename_i hmem
    rw [lookupKey_append, lookupKey_eq_none hmem]
    simp [lookupKey]

/-- `Object.assign` never disturbs a key absent from the source. -/
theorem objectAssign_lookup_preserve {α : Type} {k : String} {v : α} :
    ∀ (u : List (String × α)) (acc : List (String × α)), lookupKey k acc = some v →
      k ∉ keysOf u → lookupKey k (objectAssign acc u) = some v := by
  intro u
  induction u with
  | nil => intro acc hacc _; exact hacc
  | cons kv rest ih =>
      intro acc hacc hk
      simp only [keysOf, List.map_cons, List.mem_cons, not_or] at hk
      rw [objectAssign, List.foldl_cons]
      exact ih _ (by rw [assignStep_lookup_ne acc kv (fun h => hk.1 h.symm)]; exact hacc)
        (by simpa [keysOf] using hk.2)

/-- After `Object.assign(target, source)`, every key of a
duplicate-free source looks up to the source's value. -/
theorem objectAssign_lookup_of_mem {α : Type} {k : String} {v : α} :
    ∀ (u : List (String × α)) (d : List (String × α)), (keysOf u).Nodup →
      lookupKey k u = some v → lookupKey k (objectAssign d u) = some v := by
  intro u
  induction u with
  | nil => intro d _ h; simp [lookupKey] at h
  | cons kv rest ih =>
      intro d hnd hu
      have hnd' : (keysOf rest).Nodup ∧ kv.1 ∉ keysOf rest := by
        simp only [keysOf, List.map_cons, List.nodup_cons] at hnd
        exact ⟨hnd.2, by simpa [keysOf] using hnd.1⟩
      rw [objectAssign, List.foldl_cons]
      by_cases hk : kv.1 = k
      · rw [lookupKey, if_pos hk] at hu
        rcases Option.some.injEq _ _ ▸ hu with rfl
        subst hk
        exact objectAssign_lookup_preserve rest _ (assignStep_lookup_self d kv) hnd'.2
      · rw [lookupKey, if_neg hk] at hu
        exact ih _ hnd'.1 hu

/-- `mergeSpec` with an empty override is the identity. -/
theorem mergeSpec_nil {α : Type} (d : List (String × α)) : mergeSpec d [] = d := by
  simp [mergeSpec, lookupKey]

/-- `Object.assign` implements the specification's merge rule on
objects with duplicate-free key sequences. -/
theorem objectAssign_eq_mergeSpec {α : Type} :
    ∀ (o d : List (String × α)), (keysOf d).Nodup → (keysOf o).Nodup →
      objectAssign d o = mergeSpec d o := by
  intro o
  induction o with
  | nil =>
      intro d _ _
      rw [mergeSpec_nil]
      rfl
  | cons kv rest ih =>
      intro d hd ho
      have ho' : (keysOf rest).Nodup ∧ kv.1 ∉ keysOf rest := by
        simp only [keysOf, List.map_cons, List.nodup_cons] at ho
        exact ⟨ho.2, by simpa [keysOf] using ho.1⟩
      have hstep : objectAssign d (kv :: rest) = objectAssign (assignStep d kv) rest := rfl
      rw [hstep, ih (assignStep d kv) (nodup_keysOf_assignStep kv hd) ho'.1]
      by_cases hmem : kv.1 ∈ keysOf d
      · have hrepl : assignStep d kv
            = d.map (fun p => if p.1 = kv.1 then (p.1, kv.2) else p) := by
          unfold assignStep
          rw [if_pos hmem]
        rw [hrepl]
        unfold mergeSpec
        congr 1
        · rw [List.map_map]
          apply List.map_congr_left
          intro p _
          by_cases hp : p.1 = kv.1
          · simp only [Function.comp_apply, if_pos hp]
            rw [lookupKey, if_pos hp.symm, lookupKey_eq_none (hp ▸ ho'.2)]
            rfl
          · simp only [Function.comp_apply, if_neg hp]
            rw [lookupKey, if_neg (fun h => hp h.symm)]
        · rw [keysOf_replace]
          rw [List.filter_cons_of_neg (by simpa using hmem)]
      · have happ : assignStep d kv = d ++ [kv] := by
          unfold assignStep
          rw [if_neg hmem]
        rw [happ]
        unfold mergeSpec
        rw [List.map_append, List.filter_cons_of_pos (by simpa using hmem)]
        have hmap : List.map (fun p => (p.1, (lookupKey p.1 rest).getD p.2)) d
            = List.map (fun p => (p.1, (lookupKey p.1 (kv :: rest)).getD p.2)) d := by
          apply List.map_congr_left
          intro p hp
          have hpk : p.1 ≠ kv.1 := by
            intro h
            exact hmem (h ▸ List.mem_map_of_mem Prod.fst hp)
          rw [lookupKey, if_neg (fun h => hpk h.symm)]
        have hkv : List.map (fun p => (p.1, (lookupKey p.1 rest).getD p.2)) [kv]
            = [kv] := by
          simp [lookupKey_eq_none ho'.2]
        have hfil : List.filter (fun p => decide (p.1 ∉ keysOf (d ++ [kv]))) rest
            = List.filter (fun p => decide (p.1 ∉ keysOf d)) rest := by
          apply List.filter_congr
          intro p hp
          have hpk : p.1 ≠ kv.1 := by
            intro h
            exact ho'.2 (h ▸ List.mem_map_of_mem Prod.fst hp)
          simp [keysOf, hpk]
        rw [hmap, hkv, hfil]
        rw [List.append_assoc]
        rfl

/-! ### Claim theorems -/

/-- Claim C1, counterexample to the claim as stated: the offset push is
not unconditional.  For an eligible large raster node processed while
the svgo override config carries no `basePath` entry, the relocate
strategy is chosen (the file exists with size 10000 at or above the
limit) and then throws before reaching the push, so the invocation
rejects with `processedImages` left empty. -/
theorem C1_push_skipped_on_throw :
    isNodeValidInlineImage envPhoto stNoBase.processedImages nodePhoto = true ∧
    envPhoto.statSize (pathResolveSrc (getImagesSrc nodePhoto)) = some 10000 ∧
    stNoBase.imageLimit ≤ 10000 ∧
    (processOutputHtml envPhoto stNoBase htmlPhoto nodePhoto).out = Promise.rejected ∧
    (processOutputHtml envPhoto stNoBase htmlPhoto nodePhoto).st.processedImages = [] := by
  refine ⟨by decide, by decide, by decide, by decide, by decide⟩

/-- Claim C1 (amended): each eligible node is attempted at most once per
run.  (a) whenever the `processOutputHtml` invocation that chooses the
strategy does not reject — in particular for every SVG-strategy
invocation regardless of the optimizer's later success or failure, and
for every raster invocation that completes its synchronous body — the
node's start offset is pushed into `processedImages` during that same
invocation; (b) a node whose span start offset is already in the set is
classified ineligible on every later pass; (c) consequently the chain
never hands the same start offset to the transformer twice in one run. -/
theorem C1_at_most_once :
    (∀ (env : Env) (st : PluginState) (html : String) (node : PNode),
      isNodeValidInlineImage env st.processedImages node = true →
      (processOutputHtml env st html node).out ≠ Promise.rejected →
      (processOutputHtml env st html node).st.processedImages
        = st.processedImages ++ [node.loc.startOffset]) ∧
    (∀ (env : Env) (processed : List Nat) (node : PNode),
      node.loc.startOffset ∈ processed →
      isNodeValidInlineImage env processed node = false) ∧
    (∀ (env : Env) (st : PluginState) (html : String) (ims : List PNode),
      (updateHTML env st html ims).trace.Nodup) := by
  refine ⟨?_, ?_, ?_⟩
  · intro env st html node hvalid hrej
    exact poh_processed_push (valid_src_ne hvalid) hrej
  · intro env processed node hmem
    simp [isNodeValidInlineImage, hmem]
  · intro env st html ims
    exact (updateHTML_inv env st html ims).1

/-- Witness for C1 on the concrete single-SVG document. -/
theorem C1_at_most_once_witness :
    (processOutputHtml envLogo stBase htmlLogo nodeLogo).st.processedImages
      = stBase.processedImages ++ [5] ∧
    isNodeValidInlineImage envLogo [5] nodeLogo = false ∧
    (updateHTML envLogo stBase htmlLogo [nodeLogo]).trace.Nodup :=
  ⟨C1_at_most_once.1 envLogo stBase htmlLogo nodeLogo (by decide) (by decide),
   C1_at_most_once.2.1 envLogo [5] nodeLogo (by decide),
   C1_at_most_once.2.2 envLogo stBase htmlLogo [nodeLogo]⟩

/-- Claim C2: each `processImage` iteration re-parses the current
buffer, selects the first eligible candidate of the fresh tree in
document order, and on transformer success updates the buffer exactly
by `buffer[0:start] ++ fragment ++ buffer[end:]` with `[start, end)`
taken from that fresh tree (the definition of `processImage` takes only
the current buffer, so no earlier tree can be consulted). -/
theorem C2_fresh_splice (env : Env) (st : PluginState) (html : String) (node : PNode)
    (hfirst : getFirstInlineImage env st.processedImages (env.parseFragment html) = some node) :
    ∀ h', (processImage env st html).out = Promise.resolved h' →
      ∃ frag, h' = spliceAt html node.loc.startOffset node.loc.endOffset frag := by
  intro h' hout
  simp only [processImage, hfirst] at hout
  exact poh_out_splice (valid_src_ne (getFirst_valid hfirst)) h' hout

/-- Witness for C2 on the concrete single-SVG document. -/
theorem C2_fresh_splice_witness :
    ∃ frag, "<div><svg>OK</svg></div>" = spliceAt htmlLogo 5 25 frag :=
  C2_fresh_splice envLogo stBase htmlLogo nodeLogo rfl "<div><svg>OK</svg></div>" (by decide)

/-- Claim C3: a document with zero eligible image references is left
unchanged — `processImages` resolves with `undefined`, the pre-emit
hook hands the html plugin data back with its original buffer, and
`updateOutputFile` never writes a file for a falsy html value. -/
theorem C3_no_candidates_unchanged (env : Env) (st : PluginState) (d : HtmlPluginData)
    (h : getInlineImages env st.processedImages (env.parseFragment d.html) = []) :
    (processImages env (getUserConfig st d) d.html).out = Promise.resolved none ∧
    afterHtmlProcessingHook env st d = Promise.resolved (d, getUserConfig st d) ∧
    ∀ op fn p f c, updateOutputFile op none fn ≠ WriteOutcome.wrote p f c := by
  have h0 : processImages env (getUserConfig st d) d.html
      = { out := Promise.resolved none, st := getUserConfig st d, copies := [], trace := [] } := by
    simp [processImages, getUserConfig, h]
  refine ⟨by rw [h0], ?_, ?_⟩
  · simp only [afterHtmlProcessingHook, h0]
  · intro op fn p f c
    unfold updateOutputFile
    split
    · simp
    · simp

/-- Witness for C3 on a concrete image-free document. -/
theorem C3_no_candidates_unchanged_witness :
    (processImages emptyEnv (getUserConfig stBase dPlain) dPlain.html).out
      = Promise.resolved none ∧
    afterHtmlProcessingHook emptyEnv stBase dPlain
      = Promise.resolved (dPlain, getUserConfig stBase dPlain) ∧
    ∀ op fn p f c, updateOutputFile op none fn ≠ WriteOutcome.wrote p f c :=
  C3_no_candidates_unchanged emptyEnv stBase dPlain rfl

/-- Claim C4, counterexample to the claim as stated: an eligible raster
asset whose extension is `.png` but whose name also contains `.svg`
(`a.svg.png`, size 10000, at or above the limit 5148) is not relocated:
the `.svg` substring is tested first, so the SVG strategy runs, no copy
is performed, and the node is replaced by optimizer output. -/
theorem C4_svg_substring_counterexample :
    isNodeValidInlineImage envMixed stWithBase.processedImages nodeMixed = true ∧
    envMixed.statSize (pathResolveSrc (getImagesSrc nodeMixed)) = some 10000 ∧
    stWithBase.imageLimit ≤ 10000 ∧
    (processOutputHtml envMixed stWithBase htmlMixed nodeMixed).copies = [] ∧
    (processOutputHtml envMixed stWithBase htmlMixed nodeMixed).out
      = Promise.resolved "<div><svg>OK</svg></div>" := by
  refine ⟨by decide, by decide, by decide, by decide, by decide⟩

/-- Claim C4 (amended): for every eligible asset whose src contains
`.png` or `.jpg` but not `.svg`: at or above `imageLimit` (default
5148), and provided the svgo override config carries a string
`basePath`, the file is copied to the static destination and the node
replaced by a relocated `<img>`; strictly below the limit the node is
replaced by a base64 data-URI `<img>` whose mime type is determined
from the file path, and nothing is copied. -/
theorem C4_raster_threshold (env : Env) (st : PluginState) (html : String) (node : PNode)
    (size : Nat) (h1 : getImagesSrc node ≠ "")
    (h2 : hasSub ".svg" (getImagesSrc node) = false)
    (h3 : env.statSize (pathResolveSrc (getImagesSrc node)) = some size) :
    (st.imageLimit ≤ size →
      ∀ bp, lookupKey "basePath" st.userConfig = some (JsVal.str bp) →
        (processOutputHtml env st html node).out = Promise.resolved
          (spliceAt html node.loc.startOffset node.loc.endOffset
            ("<img src=\"" ++ ("./" ++ bp ++ (lastD (splitSlash (getImagesSrc node)) ""))
              ++ "\" />")) ∧
        (processOutputHtml env st html node).copies =
          [(pathResolveSrc (getImagesSrc node),
            "dist/" ++ bp ++ "/" ++ (lastD (splitSlash (getImagesSrc node)) ""))]) ∧
    (size < st.imageLimit →
      (processOutputHtml env st html node).out = Promise.resolved
        (spliceAt html node.loc.startOffset node.loc.endOffset
          ("<img src=\""
            ++ ("data:" ++ (env.mimeLookup (pathResolveSrc (getImagesSrc node))).getD "false"
              ++ ";base64," ++ env.base64 (env.readFileBytes (pathResolveSrc (getImagesSrc node))))
            ++ "\" />")) ∧
      (processOutputHtml env st html node).copies = []) :=
  poh_raster h1 h2 h3

/-- Witness for C4 on the concrete large `photo.png` document. -/
theorem C4_raster_threshold_witness :
    (processOutputHtml envPhoto stWithBase htmlPhoto nodePhoto).out
      = Promise.resolved (spliceAt htmlPhoto 0 21
          ("<img src=\"" ++ ("./" ++ "imgs/" ++ "photo.png") ++ "\" />")) ∧
    (processOutputHtml envPhoto stWithBase htmlPhoto nodePhoto).copies
      = [("src/photo.png", "dist/" ++ "imgs/" ++ "/" ++ "photo.png")] := by
  have h := (C4_raster_threshold envPhoto stWithBase htmlPhoto nodePhoto 10000
    (by decide) (by decide) (by decide)).1 (by decide) "imgs/" (by decide)
  exact ⟨h.1, h.2⟩

/-- Claim C5 (code bug witness): when the optimizer fails for the first
of two SVG candidates, the failure is only logged — neither `resolve`
nor `reject` is called — so the `processImages` promise stays pending
forever: the second candidate is never attempted (trace stops at the
first node's offset) even though both were classified as candidates. -/
theorem C5_optimizer_failure_pipeline_pending :
    (getInlineImages envTwo stBase.processedImages fragTwo).length = 2 ∧
    (processImages envTwo stBase htmlTwo).out = Promise.pending ∧
    (processImages envTwo stBase htmlTwo).trace = [3] ∧
    (processImages envTwo stBase htmlTwo).st.processedImages = [3] := by
  refine ⟨by decide, by decide, by decide, by decide⟩

/-- Claim C6 (code bug witness): the relocation path is built from
`this.userConfig.basePath` — the `basePath` key of the svgo override
config — and never from the `basePath` stored from the host options at
construction.  With a host `basePath` but no svgo-override `basePath`
the relocation throws (promise rejected) for any stored host value; the
override's `basePath` is what appears in the replacement fragment. -/
theorem C6_basePath_from_svgo_config :
    (∀ b, (processOutputHtml envPhoto { stNoBase with basePath := b }
        htmlPhoto nodePhoto).out = Promise.rejected) ∧
    (processOutputHtml envPhoto stWithBase htmlPhoto nodePhoto).out
      = Promise.resolved "<img src=\"./imgs/photo.png\" />" := by
  refine ⟨fun b => rfl, by decide⟩

/-- Claim C7: a tree node is classified eligible if and only if its tag
is `img`, it has a `src` attribute with a non-empty value containing
one of the substrings `.svg`, `.png`, `.jpg` (substring containment,
not suffix match), the value resolved against the `src` base directory
exists on disk, and its span start offset is not in the
processed-offset set. -/
theorem C7_classifier_iff (env : Env) (processed : List Nat) (node : PNode) :
    isNodeValidInlineImage env processed node = true ↔ eligibleSpec env processed node := by
  rw [isNodeValid_iff]
  unfold eligibleSpec
  cases hf : node.attrs.find? (fun x => x.name == "src") with
  | none =>
      simp [getImagesSrc, hf, hasSub_empty_svg, hasSub_empty_png, hasSub_empty_jpg]
  | some a =>
      simp only [getImagesSrc, hf]
      by_cases hv : a.value = ""
      · simp [hv, hasSub_empty_svg, hasSub_empty_png, hasSub_empty_jpg]
      · by_cases hsub : hasSub ".svg" a.value = true ∨ hasSub ".jpg" a.value = true ∨
            hasSub ".png" a.value = true
        · rw [if_pos ⟨hv, hsub⟩]
          constructor
          · rintro ⟨h1, h2, h3, h4⟩
            exact ⟨h2, ⟨a, rfl, hv, h4, h3⟩, h1⟩
          · rintro ⟨h2, ⟨a', ha', -, hd', he'⟩, h1⟩
            cases ha'
            exact ⟨h1, h2, he', hd'⟩
        · rw [if_neg (fun hc => hsub hc.2)]
          constructor
          · rintro ⟨-, -, -, hd⟩
            rcases hd with hd | hd | hd <;>
              simp [hasSub_empty_svg, hasSub_empty_png, hasSub_empty_jpg] at hd
          · rintro ⟨-, ⟨a', ha', -, hd', -⟩, -⟩
            cases ha'
            exact absurd (show hasSub ".svg" a.value = true ∨ hasSub ".jpg" a.value = true ∨
              hasSub ".png" a.value = true by tauto) hsub

/-- Claim C8: the merged optimizer config starts from the default
ordered sequence, replaces the value of every key also present in the
override in place, and appends the override's new keys at the end, in
override order; the plugin sequence handed to SVGO enumerates exactly
that merged object. -/
theorem C8_merge_order {α : Type} (d o : List (String × α))
    (hd : (keysOf d).Nodup) (ho : (keysOf o).Nodup) :
    objectAssign d o = mergeSpec d o ∧
    configPlugins (objectAssign d o) = (mergeSpec d o).map (fun p => [p]) := by
  have h := objectAssign_eq_mergeSpec o d hd ho
  exact ⟨h, by rw [configPlugins, h]⟩

/-- Witness for C8: the specification's own example
`{a:1,b:2}` merged with `{b:3,c:4}` gives `a:1, b:3, c:4`. -/
theorem C8_merge_order_witness :
    objectAssign [("a", (1 : Int)), ("b", 2)] [("b", 3), ("c", 4)]
      = [("a", 1), ("b", 3), ("c", 4)] :=
  ((C8_merge_order [("a", (1 : Int)), ("b", 2)] [("b", 3), ("c", 4)]
    (by decide) (by decide)).1).trans (by decide)

/-- Claim C9: `Object.assign(svgoDefaultConfig, this.userConfig)` is
not pure — after any SVG-strategy invocation the shared default config
object holds the merge result, so every later merge starts from a
default that already contains the override's keys and values. -/
theorem C9_default_config_mutated (env : Env) (st : PluginState) (html : String)
    (node : PNode) (h1 : getImagesSrc node ≠ "")
    (h2 : hasSub ".svg" (getImagesSrc node) = true) :
    (processOutputHtml env st html node).st.svgoDefault
      = objectAssign st.svgoDefault st.userConfig ∧
    ((keysOf st.userConfig).Nodup → ∀ k v, lookupKey k st.userConfig = some v →
      lookupKey k (processOutputHtml env st html node).st.svgoDefault = some v) := by
  have h := @poh_svg_assign env st html node h1 h2
  exact ⟨h, fun hnd k v hk => by rw [h]; exact objectAssign_lookup_of_mem _ _ hnd hk⟩

/-- Witness for C9: after processing one SVG with override
`{removeTitle: true}`, the shared default carries that entry. -/
theorem C9_default_config_mutated_witness :
    (processOutputHtml envLogo stUser htmlLogo nodeLogo).st.svgoDefault
      = objectAssign stUser.svgoDefault stUser.userConfig ∧
    lookupKey "removeTitle" (processOutputHtml envLogo stUser htmlLogo nodeLogo).st.svgoDefault
      = some (JsVal.bool true) := by
  have h := C9_default_config_mutated envLogo stUser htmlLogo nodeLogo (by decide) (by decide)
  exact ⟨h.1, h.2 (by decide) "removeTitle" (JsVal.bool true) (by decide)⟩

/-- Claim C10: with a missing compilation output path or a missing
output filename, the after-emit html hook passes the plugin data back
unchanged and registers no file for that document, and
`updateOutputFile` rejects (writes nothing) whenever the output path or
the filename is missing. -/
theorem C10_config_errors_graceful (cop : Option String) (d : HtmlPluginData)
    (st : PluginState) (h : cop.getD "" = "" ∨ d.outputName.getD "" = "") :
    (afterEmitHtmlHook cop d st).2 = d ∧
    (afterEmitHtmlHook cop d st).1.files = st.files ∧
    (∀ h' fn, updateOutputFile "" h' fn = WriteOutcome.failed) ∧
    (∀ op h', updateOutputFile op h' "" = WriteOutcome.failed) := by
  refine ⟨?_, ?_, ?_, ?_⟩
  · unfold afterEmitHtmlHook
    by_cases hout : cop.getD "" = ""
    · simp [hout]
    · rcases h with h | h
      · exact absurd h hout
      · simp [hout, h, getUserConfig]
  · unfold afterEmitHtmlHook
    by_cases hout : cop.getD "" = ""
    · simp [hout]
    · rcases h with h | h
      · exact absurd h hout
      · simp [hout, h, getUserConfig]
  · intro h' fn
    simp [updateOutputFile]
  · intro op h'
    simp [updateOutputFile]

/-- Witness for C10 at a missing output path. -/
theorem C10_config_errors_graceful_witness :
    (afterEmitHtmlHook none dPlain stBase).2 = dPlain ∧
    (afterEmitHtmlHook none dPlain stBase).1.files = stBase.files ∧
    (∀ h' fn, updateOutputFile "" h' fn = WriteOutcome.failed) ∧
    (∀ op h', updateOutputFile op h' "" = WriteOutcome.failed) :=
  C10_config_errors_graceful none dPlain stBase (Or.inl rfl)

end InlineImage
